import Mathlib

/-!
Shallow embedding of the `imposter` party-game backend (FastAPI + SQLAlchemy).

Source files embedded:
- `app/models.py` (in-memory `Player`, `Game`),
- `app/db_models.py` (rows `DBGame`, `DBPlayer`, `DBVote`),
- `app/game_manager.py` (`GameManager`: `_db_game_to_memory`, `get_game`,
  `generate_questions`, `start_game`, `reveal_imposter`, `broadcast`),
- `app/routes/game.py` (the `vote` and `restart_game` route handlers).

Conventions of the embedding:
- Python dicts that preserve insertion order are embedded as association
  lists; assigning to an existing key updates the entry in place, a new key
  is appended (`dictSet`, `bumpCount`).
- Python object identity on `Player` values is embedded as equality of
  `player_id` (ids are fresh UUID strings, one object per id in a loaded game).
- A database session's mutations are embedded as pure functions
  `DBState → DBState`; a handler returns its new state, the list of
  room-broadcast events it emitted, and its HTTP result as an `Except`.
- `random.randint` / `random.sample` outputs are passed in as explicit
  arguments (the list of sampled imposter player ids); their probability
  distributions are embedded separately as rational mass functions.
-/

namespace Imposter

/-- In-memory player, `app/models.py` `Player.__init__`: `score = 0`,
`question = None`, `answer = None`, `is_imposter = False`. -/
structure Player where
  player_id : String
  name : String
  is_host : Bool
  score : Nat
  question : Option String
  answer : Option String
  is_imposter : Bool
deriving DecidableEq, Repr

/-- In-memory game, `app/models.py` `Game.__init__`: starts with the host as
sole player, stage `waiting_for_players`, empty imposter list, empty votes. -/
structure Game where
  game_id : String
  players : List Player
  stage : String
  imposters : List Player
  votes : List (String × String)
deriving DecidableEq, Repr

/-- Row of the `games` table (`app/db_models.py` `DBGame`). -/
structure DBGame where
  game_id : String
  host_name : String
  stage : String
deriving DecidableEq, Repr

/-- Row of the `players` table (`app/db_models.py` `DBPlayer`). -/
structure DBPlayer where
  player_id : String
  game_id : String
  name : String
  is_host : Bool
  score : Nat
  question : Option String
  answer : Option String
  is_imposter : Bool
deriving DecidableEq, Repr

/-- Row of the `votes` table (`app/db_models.py` `DBVote`). -/
structure DBVote where
  game_id : String
  voter_player_id : String
  voted_player_id : String
deriving DecidableEq, Repr

/-- The relational store the `GameManager` reads and writes. -/
structure DBState where
  games : List DBGame
  players : List DBPlayer
  votes : List DBVote
deriving DecidableEq, Repr

/-- Room-broadcast events emitted by the embedded handlers, with exactly the
payload fields the Python dicts carry. -/
inductive Msg where
  /-- `{"event": "vote_update", "votes": vote_counts}` -/
  | voteUpdate (votes : List (String × Nat)) : Msg
  /-- `{"event": "reveal_imposter", "stage", "imposters", "votes", "scores"}` -/
  | revealImposter (stage : String) (imposters : List String)
      (votes : List (String × Nat)) (scores : List (String × Nat)) : Msg
  /-- `{"event": "game_restarted", "stage", "players": [{name, points,
  question, is_imposter}]}` -/
  | gameRestarted (stage : String)
      (players : List (String × Nat × Option String × Bool)) : Msg
deriving DecidableEq, Repr

/-- Python dict assignment `d[k] = v` on an insertion-ordered dict: update the
existing entry in place, else append a new entry. -/
def dictSet : List (String × String) → String → String → List (String × String)
  | [], k, v => [(k, v)]
  | (k0, v0) :: rest, k, v =>
      if k0 == k then (k0, v) :: rest else (k0, v0) :: dictSet rest k v

/-- One step of the tally loops (`vote_counts[t] = vote_counts.get(t, 0) + 1`). -/
def bumpCount : List (String × Nat) → String → List (String × Nat)
  | [], t => [(t, 1)]
  | (k, c) :: rest, t =>
      if k == t then (k, c + 1) :: rest else (k, c) :: bumpCount rest t

/-- The tally dict built by iterating over the recorded targets, as in
`routes/game.py` lines 171-173 and `game_manager.py` lines 332-335. -/
def countVotes (targets : List String) : List (String × Nat) :=
  targets.foldl bumpCount []

/-- Dict read with default 0 (`vote_counts.get(t, 0)`): the (unique) entry
with the given key, 0 when absent. -/
def lookupCount : List (String × Nat) → String → Nat
  | [], _ => 0
  | kv :: rest, t => if kv.1 == t then kv.2 else lookupCount rest t

/-- `max(values, default=0)` over natural counts. -/
def listMax (l : List Nat) : Nat := l.foldl Nat.max 0

/-- `max_votes = max(vote_counts.values(), default=0)` (`game_manager.py`
line 337). -/
def maxVotes (cs : List (String × Nat)) : Nat := listMax (cs.map (·.2))

/-- `most_voted_ids = [pid for pid, count in vote_counts.items() if count ==
max_votes]` (`game_manager.py` line 338): every target tied for the maximum. -/
def mostVotedIds (cs : List (String × Nat)) : List String :=
  (cs.filter (fun kv => kv.2 == maxVotes cs)).map (·.1)

/-- The keys of an association list are pairwise distinct (the dict shape). -/
def keysNodup {β : Type} (d : List (String × β)) : Prop :=
  (d.map (·.1)).Nodup

instance {β : Type} (d : List (String × β)) : Decidable (keysNodup d) := by
  unfold keysNodup; infer_instance

/-- Python object-identity membership `p in players_list`, embedded as
membership of `p`'s id (each loaded game holds one object per UUID id). -/
def pyMem (p : Player) (l : List Player) : Bool :=
  l.any (fun q => q.player_id == p.player_id)

/-- `GameManager.generate_questions`: the fixed `(main, imposter)` pair. -/
def generate_questions : String × String :=
  ("What\x27s your favorite food?", "A chinese cuisine?")

/-- `GameManager._db_game_to_memory`: rebuild an in-memory `Game` from rows.
The host row (first `is_host` row, else the first row — `db_players[0]` is
evaluated eagerly by `next(..., default)`, so an empty row list raises
`IndexError`, embedded as `none`) becomes the initial player of
`Game.__init__`; every non-host row is appended in order. The `Game`
constructor leaves `imposters = []` and `votes = {}`. -/
def _db_game_to_memory (db_game : DBGame) (db_players : List DBPlayer) :
    Option Game :=
  match db_players with
  | [] => none
  | p0 :: rest =>
    let host_player := ((p0 :: rest).find? (fun p => p.is_host)).getD p0
    let host : Player :=
      { player_id := host_player.player_id, name := host_player.name
        is_host := true, score := host_player.score
        question := host_player.question, answer := host_player.answer
        is_imposter := host_player.is_imposter }
    let others : List Player :=
      ((p0 :: rest).filter (fun p => !p.is_host)).map (fun dbp =>
        { player_id := dbp.player_id, name := dbp.name, is_host := false
          score := dbp.score, question := dbp.question, answer := dbp.answer
          is_imposter := dbp.is_imposter })
    some { game_id := db_game.game_id, players := host :: others
           stage := db_game.stage, imposters := [], votes := [] }

/-- `GameManager.get_game`: find the game row, load its player rows, convert. -/
def get_game (db : DBState) (game_id : String) : Option Game :=
  match db.games.find? (fun g => g.game_id == game_id) with
  | none => none
  | some db_game =>
      _db_game_to_memory db_game (db.players.filter (fun p => p.game_id == game_id))

/-- The question-assignment loop of `GameManager.start_game` (lines 269-281)
over the in-memory players: each player gets `q_imposter` iff it is one of
the sampled imposters (`player in imposters`, membership by identity — here
by id) and `q_main` otherwise, and its `is_imposter` flag is set likewise. -/
def startRoster (imposterIds : List String) (ps : List Player) : List Player :=
  ps.map (fun player =>
    let isImp := imposterIds.contains player.player_id
    { player with
      question := some (if isImp then generate_questions.2 else generate_questions.1)
      is_imposter := isImp })

/-- `GameManager.start_game` (lines 249-294). The random draws of lines
261-262 (`num_imposters = random.randint(1, n - 1)`;
`imposters = random.sample(game.players, num_imposters)`) are passed in as
`imposterIds`, the ids of the sampled players; their distribution is embedded
separately (`imposterSubsetMass`). The in-memory `game.imposters` list holds
the same (mutated) objects as `game.players`, so it equals the updated players
filtered to the sampled ids. Errors are raised before any mutation, so the
error branches return the store unchanged. -/
def start_game (db : DBState) (game_id : String) (imposterIds : List String) :
    DBState × Except String Game :=
  match get_game db game_id with
  | none => (db, .error "Game not found")
  | some game =>
    if game.players.length < 3 then (db, .error "At least 3 players required")
    else
      let q_main := generate_questions.1
      let q_imposter := generate_questions.2
      let updatedPlayers := startRoster imposterIds game.players
      let db1 : DBState := { db with players := db.players.map (fun dbp =>
          if game.players.any (fun p => p.player_id == dbp.player_id) then
            let isImp := imposterIds.contains dbp.player_id
            { dbp with question := some (if isImp then q_imposter else q_main)
                       is_imposter := isImp }
          else dbp) }
      let db2 : DBState := { db1 with games := db1.games.map (fun g =>
          if g.game_id == game_id then { g with stage := "question_answering" }
          else g) }
      let game1 : Game :=
        { game with players := updatedPlayers
                    imposters := updatedPlayers.filter
                      (fun p => imposterIds.contains p.player_id)
                    stage := "question_answering" }
      (db2, .ok game1)

/-- `GameManager.reveal_imposter` (lines 322-372): reload the game from the
store, tally the `votes` table rows of this game, take every id tied for the
maximum count, run the scoring loop, write scores and the `game_end` stage
back, and broadcast the summary dict. -/
def reveal_imposter (db : DBState) (game_id : String) : DBState × List Msg :=
  match get_game db game_id with
  | none => (db, [])
  | some game =>
    let votes := db.votes.filter (fun v => v.game_id == game_id)
    let vote_counts := countVotes (votes.map (·.voted_player_id))
    let most_voted_ids := mostVotedIds vote_counts
    let updatedPlayers := game.players.map (fun player =>
      if pyMem player game.imposters
          && !(most_voted_ids.contains player.player_id) then
        { player with score := player.score + 2 }
      else if !(pyMem player game.imposters)
          && game.imposters.any (fun imp => most_voted_ids.contains imp.player_id) then
        { player with score := player.score + 1 }
      else player)
    let db1 : DBState := { db with players := db.players.map (fun dbp =>
        match updatedPlayers.find? (fun p => p.player_id == dbp.player_id) with
        | some p => { dbp with score := p.score }
        | none => dbp) }
    let db2 : DBState := { db1 with games := db1.games.map (fun g =>
        if g.game_id == game_id then { g with stage := "game_end" } else g) }
    let summary := Msg.revealImposter "game_end" (game.imposters.map (·.name))
        vote_counts (updatedPlayers.map (fun p => (p.name, p.score)))
    (db2, [summary])

/-- Modelled from the spec: the in-memory session registry
`game_manager.games` (room code → live `Game` object). The handlers in
`app/routes/game.py` read and mutate it (`game_manager.games.get(game_id)`),
but no definition of that attribute survives under `src/` (the checked-in
`GameManager.__init__` only creates `self.connections`); per the spec the
Session Engine owns the set of rooms and routes each command to the room
state looked up by its code. -/
structure AppState where
  games : List (String × Game)
  db : DBState
deriving DecidableEq, Repr

/-- `game_manager.games.get(game_id)`: the (unique) entry with this key. -/
def lookupGame : List (String × Game) → String → Option Game
  | [], _ => none
  | kv :: rest, gid => if kv.1 == gid then some kv.2 else lookupGame rest gid

/-- In-place mutation of the registry entry the handler obtained by `get`:
entries under this key now hold the mutated object. -/
def updateGames : List (String × Game) → String → Game → List (String × Game)
  | [], _, _ => []
  | kv :: rest, gid, g =>
      if kv.1 == gid then (kv.1, g) :: updateGames rest gid g
      else kv :: updateGames rest gid g

/-- JSON body returned by the `vote` route. -/
structure VoteResponse where
  message : String
  current_votes : List (String × Nat)
  all_voted : Bool
deriving DecidableEq, Repr

/-- The `vote` route handler (`app/routes/game.py` lines 146-194): validate
game and both players, record or overwrite the voter's vote
(`game.votes[player_id] = target_id`), broadcast the running tally, and when
every player has a recorded vote set the in-memory stage to `reveal_imposter`
and run `GameManager.reveal_imposter`. (`hasattr(game, "votes")` is always
true: `Game.__init__` creates the attribute.) -/
def vote (st : AppState) (game_id player_id target_id : String) :
    AppState × List Msg × Except String VoteResponse :=
  match lookupGame st.games game_id with
  | none => (st, [], .error "Game not found")
  | some game =>
    match game.players.find? (fun p => p.player_id == player_id),
          game.players.find? (fun p => p.player_id == target_id) with
    | some voter, some target =>
        let votes1 := dictSet game.votes player_id target_id
        let vote_counts := countVotes (votes1.map (·.2))
        let tallyMsg := Msg.voteUpdate vote_counts
        let all_voted := votes1.length == game.players.length
        if all_voted then
          let game1 := { game with votes := votes1, stage := "reveal_imposter" }
          let st1 : AppState := { st with games := updateGames st.games game_id game1 }
          let res := reveal_imposter st1.db game_id
          ({ st1 with db := res.1 }, tallyMsg :: res.2,
            .ok { message := voter.name ++ " voted for " ++ target.name
                  current_votes := vote_counts, all_voted := true })
        else
          let game1 := { game with votes := votes1 }
          ({ st with games := updateGames st.games game_id game1 }, [tallyMsg],
            .ok { message := voter.name ++ " voted for " ++ target.name
                  current_votes := vote_counts, all_voted := false })
    | _, _ => (st, [], .error "Player not found")

/-- JSON body returned by the `restart_game` route. -/
structure RestartResponse where
  message : String
  next_stage : String
  total_players : Nat
  scores : List (String × Nat)
deriving DecidableEq, Repr

/-- The three per-player loops of the `restart_game` route handler
(`app/routes/game.py` lines 208-230): clear each player's `question` and
`is_imposter` (the `answer` field is left as it is), set the re-sampled
imposters' flags (`imposterIds`, the ids of
`random.sample(game.players, random.randint(1, n-1))`), then hand out the new
prompts by membership in the sampled list. -/
def restartRoster (imposterIds : List String) (ps : List Player) : List Player :=
  let players1 := ps.map (fun p =>
    { p with question := (none : Option String), is_imposter := false })
  let players2 := players1.map (fun p =>
    if imposterIds.contains p.player_id then { p with is_imposter := true } else p)
  players2.map (fun p =>
    { p with
      question := some (if imposterIds.contains p.player_id
        then generate_questions.2 else generate_questions.1) })

/-- The `restart_game` route handler (`app/routes/game.py` lines 196-257):
rebuild the roster via `restartRoster`, empty the vote dict, advance the
stage, store the re-sampled imposter objects, and broadcast a
`game_restarted` event listing every player's name, `points`
(`getattr(p, "points", 0)` — `Player` has no `points` attribute, so always 0),
assigned `question` and `is_imposter` flag. The store is not touched. -/
def restart_game (st : AppState) (game_id : String) (imposterIds : List String) :
    AppState × List Msg × Except String RestartResponse :=
  match lookupGame st.games game_id with
  | none => (st, [], .error "Game not found")
  | some game =>
    let players3 := restartRoster imposterIds game.players
    let imposters := players3.filter (fun p => imposterIds.contains p.player_id)
    let game1 := { game with
      players := players3
      votes := []
      stage := "question_answering"
      imposters := imposters }
    let payload := players3.map (fun p => (p.name, 0, p.question, p.is_imposter))
    let msg := Msg.gameRestarted "question_answering" payload
    ({ st with games := updateGames st.games game_id game1 }, [msg],
      .ok { message := "Game restarted successfully"
            next_stage := "question_answering"
            total_players := players3.length
            scores := players3.map (fun p => (p.name, 0)) })

/-- The per-recipient send attempts of `GameManager.broadcast`'s loop, in
registration order. `ok ch` is whether `websocket.send_json` succeeds on
channel `ch`; an exception is caught inside the loop body, so every
registered recipient is attempted. -/
def sendAttempts : List (String × Nat) → (Nat → Bool) → List (String × Bool)
  | [], _ => []
  | (n, ch) :: rest, ok => (n, ok ch) :: sendAttempts rest ok

/-- The trailing eviction loop: `del self.connections[game_id][name]` for each
name collected in `dead_connections`. -/
def delNames (room : List (String × Nat)) (names : List String) :
    List (String × Nat) :=
  names.foldl (fun r n => r.filter (fun c => c.1 != n)) room

/-- `GameManager.broadcast` (lines 207-228) for one room of the connection
registry: no registered room or an empty room returns early with no attempts;
otherwise every registered `(player_name, channel)` gets one send attempt,
failures are collected and evicted after the loop, and the call always
returns normally. Channels are opaque (`Nat` tokens); the result is the new
registry together with the names attempted. -/
def broadcast (connections : List (String × List (String × Nat)))
    (game_id : String) (ok : Nat → Bool) :
    List (String × List (String × Nat)) × List String :=
  match connections.find? (fun kv => kv.1 == game_id) with
  | none => (connections, [])
  | some kv =>
    let room := kv.2
    if room.isEmpty then (connections, [])
    else
      let attempts := sendAttempts room ok
      let dead := (attempts.filter (fun a => !a.2)).map (·.1)
      let room1 := delNames room dead
      (connections.map (fun e => if e.1 == game_id then (e.1, room1) else e),
       attempts.map (·.1))

/-- Mass function of `random.randint(a, b)`: uniform on the inclusive integer
range `[a, b]` (Python library semantics). -/
def randintMass (a b k : ℕ) : ℚ :=
  if a ≤ k ∧ k ≤ b then 1 / ((b - a + 1 : ℕ) : ℚ) else 0

/-- Mass function of the set drawn by `random.sample(population, k)` on an
`n`-element population: uniform over the `k`-element subsets (Python library
semantics; the code only uses membership and size of the sample). -/
def sampleMass (n k : ℕ) (S : Finset (Fin n)) : ℚ :=
  if S.card = k then 1 / ((n.choose k : ℕ) : ℚ) else 0

/-- Distribution of the imposter subset drawn by `start_game` lines 261-262:
first stage `k = random.randint(1, n - 1)`, second stage a uniform `k`-subset;
the composition sums over the first stage's support. -/
def imposterSubsetMass (n : ℕ) (S : Finset (Fin n)) : ℚ :=
  ∑ k ∈ Finset.Icc 1 (n - 1), randintMass 1 (n - 1) k * sampleMass n k S

/-! Concrete room used to evaluate the handlers: three players `H`, `P2`,
`P3`; the round's imposter is `P2` (`is_imposter` persisted on its row and the
in-memory `imposters` list holding the `P2` object, exactly as `start_game`
leaves them); the store's `votes` table is empty (no checked-in code ever
inserts a `DBVote` row); two in-memory votes for `u2` are already recorded. -/

/-- Demo host player object. -/
def demoP1 : Player :=
  { player_id := "u1", name := "H", is_host := true, score := 0
    question := some generate_questions.1, answer := some "a1", is_imposter := false }

/-- Demo imposter player object. -/
def demoP2 : Player :=
  { player_id := "u2", name := "P2", is_host := false, score := 0
    question := some generate_questions.2, answer := some "a2", is_imposter := true }

/-- Demo third player object. -/
def demoP3 : Player :=
  { player_id := "u3", name := "P3", is_host := false, score := 0
    question := some generate_questions.1, answer := some "a3", is_imposter := false }

/-- Demo store contents after a started round. -/
def demoDb : DBState :=
  { games := [{ game_id := "g1", host_name := "H", stage := "question_answering" }]
    players := [
      { player_id := "u1", game_id := "g1", name := "H", is_host := true, score := 0
        question := some generate_questions.1, answer := some "a1", is_imposter := false },
      { player_id := "u2", game_id := "g1", name := "P2", is_host := false, score := 0
        question := some generate_questions.2, answer := some "a2", is_imposter := true },
      { player_id := "u3", game_id := "g1", name := "P3", is_host := false, score := 0
        question := some generate_questions.1, answer := some "a3", is_imposter := false }]
    votes := [] }

/-- Demo in-memory room with votes `{u1 → u2, u3 → u2}` recorded. -/
def demoGame : Game :=
  { game_id := "g1", players := [demoP1, demoP2, demoP3]
    stage := "question_answering", imposters := [demoP2]
    votes := [("u1", "u2"), ("u3", "u2")] }

/-- Demo session state (registry entry for `g1` plus the store). -/
def demoSt : AppState := { games := [("g1", demoGame)], db := demoDb }

/-- Demo session state before any vote is recorded. -/
def demoStNoVotes : AppState :=
  { games := [("g1", { demoGame with votes := [] })], db := demoDb }

/-- A second demo store: a lobby with only two players. -/
def demoDb2 : DBState :=
  { games := [{ game_id := "g2", host_name := "H", stage := "waiting_for_players" }]
    players := [
      { player_id := "w1", game_id := "g2", name := "H", is_host := true, score := 0
        question := none, answer := none, is_imposter := false },
      { player_id := "w2", game_id := "g2", name := "B", is_host := false, score := 0
        question := none, answer := none, is_imposter := false }]
    votes := [] }

/-- The in-memory game `get_game` rebuilds from `demoDb2`. -/
def demoLoaded2 : Game :=
  { game_id := "g2"
    players := [
      { player_id := "w1", name := "H", is_host := true, score := 0
        question := none, answer := none, is_imposter := false },
      { player_id := "w2", name := "B", is_host := false, score := 0
        question := none, answer := none, is_imposter := false }]
    stage := "waiting_for_players", imposters := [], votes := [] }

/-! Helper lemmas about the dict embeddings. -/

/-- Updating the registry entry the handler obtained by `get` is observable:
looking the room up again yields the new object. -/
theorem lookupGame_updateGames (gid : String) (g g0 : Game) :
    ∀ gs : List (String × Game), lookupGame gs gid = some g0 →
      lookupGame (updateGames gs gid g) gid = some g := by
  intro gs h
  induction gs with
  | nil => simp [lookupGame] at h
  | cons kv rest ih =>
    by_cases hk : kv.1 = gid
    · simp [lookupGame, updateGames, hk]
    · simp only [lookupGame, updateGames, hk, if_neg, beq_iff_eq, if_false] at h ⊢
      exact ih h

/-- Keys after a dict assignment: the old keys plus the assigned key. -/
theorem mem_keys_dictSet (k v s : String) :
    ∀ d : List (String × String),
      (s ∈ (dictSet d k v).map (·.1) ↔ s ∈ d.map (·.1) ∨ s = k) := by
  intro d
  induction d with
  | nil => simp [dictSet, eq_comm]
  | cons e rest ih =>
    by_cases hk : e.1 = k
    · subst hk
      simp only [dictSet, beq_self_eq_true, if_true, List.map_cons, List.mem_cons]
      tauto
    · simp only [dictSet, beq_iff_eq, hk, if_false, List.map_cons, List.mem_cons, ih]
      tauto

/-- Dict assignment preserves distinctness of the keys. -/
theorem keysNodup_dictSet (k v : String) :
    ∀ d : List (String × String), keysNodup d → keysNodup (dictSet d k v) := by
  intro d h
  induction d with
  | nil => simp [dictSet, keysNodup]
  | cons e rest ih =>
    obtain ⟨a, b⟩ := e
    have hne : a ∉ rest.map (·.1) := (List.nodup_cons.mp h).1
    have hrest : keysNodup rest := (List.nodup_cons.mp h).2
    by_cases hk : a = k
    · subst hk
      have hd : dictSet ((a, b) :: rest) a v = (a, v) :: rest := by
        simp [dictSet]
      unfold keysNodup
      rw [hd, List.map_cons]
      exact List.nodup_cons.mpr ⟨hne, hrest⟩
    · have hd : dictSet ((a, b) :: rest) k v = (a, b) :: dictSet rest k v := by
        simp [dictSet, hk]
      have hmem : a ∉ (dictSet rest k v).map (·.1) := by
        rw [mem_keys_dictSet]
        rintro (hm | he)
        · exact hne hm
        · exact hk he
      unfold keysNodup
      rw [hd, List.map_cons]
      exact List.nodup_cons.mpr ⟨hmem, ih hrest⟩

/-- With distinct keys, the entries under the assigned key after a dict
assignment are exactly the single latest entry. -/
theorem filter_dictSet_self (k v : String) :
    ∀ d : List (String × String), keysNodup d →
      (dictSet d k v).filter (fun e => e.1 == k) = [(k, v)] := by
  intro d h
  induction d with
  | nil => simp [dictSet]
  | cons e rest ih =>
    have hne : e.1 ∉ rest.map (·.1) := (List.nodup_cons.mp h).1
    have hrest : keysNodup rest := (List.nodup_cons.mp h).2
    by_cases hk : e.1 = k
    · subst hk
      have hnil : rest.filter (fun e2 => e2.1 == e.1) = [] := by
        rw [List.filter_eq_nil_iff]
        intro a ha hak
        exact hne ((by simpa using hak) ▸ List.mem_map_of_mem (·.1) ha)
      simp [dictSet, List.filter_cons, hnil]
    · simpa [dictSet, List.filter_cons, hk] using ih hrest

/-- Assigning to a key already present keeps the dict's size. -/
theorem length_dictSet_mem (k v : String) :
    ∀ d : List (String × String), k ∈ d.map (·.1) →
      (dictSet d k v).length = d.length := by
  intro d h
  induction d with
  | nil => simp at h
  | cons e rest ih =>
    by_cases hk : e.1 = k
    · simp [dictSet, hk]
    · have hmem : k ∈ rest.map (·.1) := by
        rw [List.map_cons] at h
        rcases List.mem_cons.mp h with h1 | h2
        · exact absurd h1.symm hk
        · exact h2
      simp [dictSet, hk, ih hmem]

/-- The assigned key is a key of the result. -/
theorem mem_keys_dictSet_self (d : List (String × String)) (k v : String) :
    k ∈ (dictSet d k v).map (·.1) := by
  rw [mem_keys_dictSet]; exact Or.inr rfl

/-! Tally lemmas. -/

/-- One `vote_counts.get(t, 0) + 1` step shifts exactly the bumped key. -/
theorem lookupCount_bump (t s : String) :
    ∀ cs : List (String × Nat),
      lookupCount (bumpCount cs t) s
        = lookupCount cs s + (if s = t then 1 else 0) := by
  intro cs
  induction cs with
  | nil =>
    by_cases hst : s = t
    · subst hst; simp [bumpCount, lookupCount]
    · have hts : ¬ t = s := fun h => hst h.symm
      simp [bumpCount, lookupCount, hst, hts]
  | cons e rest ih =>
    obtain ⟨a, c⟩ := e
    by_cases hk : a = t
    · subst hk
      by_cases hs : a = s
      · subst hs; simp [bumpCount, lookupCount]
      · have hsa : ¬ s = a := fun h => hs h.symm
        simp [bumpCount, lookupCount, hs, hsa]
    · by_cases hs : a = s
      · subst hs
        simp [bumpCount, lookupCount, hk]
      · simp [bumpCount, lookupCount, hk, hs, ih]

/-- Folding the tally loop over recorded targets adds each target's
occurrence count. -/
theorem lookupCount_foldl (s : String) :
    ∀ (ts : List String) (cs : List (String × Nat)),
      lookupCount (ts.foldl bumpCount cs) s = lookupCount cs s + ts.count s := by
  intro ts
  induction ts with
  | nil => intro cs; simp
  | cons t rest ih =>
    intro cs
    rw [List.foldl_cons, ih (bumpCount cs t), lookupCount_bump]
    by_cases hst : s = t
    · subst hst; simp [List.count_cons]; omega
    · have hts : ¬ t = s := fun h => hst h.symm
      simp [List.count_cons, hst, hts]

/-- The tally dict of the code assigns every target its occurrence count
among the recorded votes (0 for targets never voted for). -/
theorem lookupCount_countVotes (ts : List String) (s : String) :
    lookupCount (countVotes ts) s = ts.count s := by
  rw [countVotes, lookupCount_foldl]
  simp [lookupCount]

/-- The keys after one bump step. -/
theorem mem_keys_bump (t s : String) :
    ∀ cs : List (String × Nat),
      (s ∈ (bumpCount cs t).map (·.1) ↔ s ∈ cs.map (·.1) ∨ s = t) := by
  intro cs
  induction cs with
  | nil => simp [bumpCount, eq_comm]
  | cons e rest ih =>
    by_cases hk : e.1 = t
    · subst hk
      simp only [bumpCount, beq_self_eq_true, if_true, List.map_cons, List.mem_cons]
      tauto
    · simp only [bumpCount, beq_iff_eq, hk, if_false, List.map_cons, List.mem_cons, ih]
      tauto

/-- The keys accumulated by the tally fold. -/
theorem mem_keys_foldl (s : String) :
    ∀ (ts : List String) (cs : List (String × Nat)),
      (s ∈ ((ts.foldl bumpCount cs).map (·.1)) ↔ s ∈ cs.map (·.1) ∨ s ∈ ts) := by
  intro ts
  induction ts with
  | nil => intro cs; simp
  | cons t rest ih =>
    intro cs
    rw [List.foldl_cons, ih (bumpCount cs t), mem_keys_bump]
    simp only [List.mem_cons]
    tauto

/-- The tally's keys are exactly the voted-for targets. -/
theorem mem_keys_countVotes (ts : List String) (s : String) :
    s ∈ (countVotes ts).map (·.1) ↔ s ∈ ts := by
  rw [countVotes, mem_keys_foldl]
  simp

/-- One bump step preserves distinctness of the tally's keys. -/
theorem keysNodup_bump (t : String) :
    ∀ cs : List (String × Nat), keysNodup cs → keysNodup (bumpCount cs t) := by
  intro cs h
  induction cs with
  | nil => simp [bumpCount, keysNodup]
  | cons e rest ih =>
    obtain ⟨a, c⟩ := e
    have hne : a ∉ rest.map (·.1) := (List.nodup_cons.mp h).1
    have hrest : keysNodup rest := (List.nodup_cons.mp h).2
    by_cases hk : a = t
    · subst hk
      have hd : bumpCount ((a, c) :: rest) a = (a, c + 1) :: rest := by
        simp [bumpCount]
      unfold keysNodup
      rw [hd, List.map_cons]
      exact List.nodup_cons.mpr ⟨hne, hrest⟩
    · have hd : bumpCount ((a, c) :: rest) t = (a, c) :: bumpCount rest t := by
        simp [bumpCount, hk]
      have hmem : a ∉ (bumpCount rest t).map (·.1) := by
        rw [mem_keys_bump]
        rintro (hm | he)
        · exact hne hm
        · exact hk he
      unfold keysNodup
      rw [hd, List.map_cons]
      exact List.nodup_cons.mpr ⟨hmem, ih hrest⟩

/-- The tally dict built by the fold has distinct keys. -/
theorem keysNodup_countVotes (ts : List String) : keysNodup (countVotes ts) := by
  rw [countVotes]
  have h : ∀ cs : List (String × Nat), keysNodup cs →
      keysNodup (ts.foldl bumpCount cs) := by
    induction ts with
    | nil => intro cs h; simpa using h
    | cons t rest ih => intro cs h; exact ih (bumpCount cs t) (keysNodup_bump t cs h)
  exact h [] (by simp [keysNodup])

/-- In a dict with distinct keys, membership of an entry determines the
looked-up value. -/
theorem lookupCount_of_mem (k : String) (v : Nat) :
    ∀ cs : List (String × Nat), keysNodup cs → (k, v) ∈ cs →
      lookupCount cs k = v := by
  intro cs hnd hm
  induction cs with
  | nil => simp at hm
  | cons e rest ih =>
    rcases List.mem_cons.mp hm with he | hrest
    · simp [lookupCount, ← he]
    · have hne : e.1 ∉ rest.map (·.1) := (List.nodup_cons.mp hnd).1
      have hk : ¬ e.1 = k :=
        fun h => hne (h ▸ List.mem_map_of_mem (·.1) hrest)
      simpa [lookupCount, hk] using ih (List.nodup_cons.mp hnd).2 hrest

/-- A key of a dict occurs as an entry carrying its looked-up value. -/
theorem mem_entry_of_key (k : String) :
    ∀ cs : List (String × Nat), k ∈ cs.map (·.1) →
      (k, lookupCount cs k) ∈ cs := by
  intro cs hm
  induction cs with
  | nil => simp at hm
  | cons e rest ih =>
    by_cases hk : e.1 = k
    · subst hk
      simp [lookupCount]
    · have hmem : k ∈ rest.map (·.1) := by
        rw [List.map_cons] at hm
        rcases List.mem_cons.mp hm with h1 | h2
        · exact absurd h1.symm hk
        · exact h2
      simpa [lookupCount, hk] using List.mem_cons_of_mem e (ih hmem)

/-- **C1** (code bug). At the `Voting → ScoredEnd` transition the claim's
Scoring Rule never fires: `reveal_imposter` reloads the room through
`_db_game_to_memory`, whose `Game` has an empty `imposters` list, so in the
demo room — whose round imposter `u2` is not in the (empty) winner set and
should gain exactly +2 — every score is left unchanged and the broadcast
summary names no imposters. -/
theorem C1_reveal_imposter_scoring_noop :
    demoDb.players.map (fun p => (p.player_id, p.is_imposter))
      = [("u1", false), ("u2", true), ("u3", false)]
    ∧ (reveal_imposter demoDb "g1").1.players.map (fun p => (p.player_id, p.score))
      = [("u1", 0), ("u2", 0), ("u3", 0)]
    ∧ (reveal_imposter demoDb "g1").2
      = [Msg.revealImposter "game_end" [] [] [("H", 0), ("P2", 0), ("P3", 0)]] :=
  ⟨rfl, rfl, rfl⟩

/-- **C3** (code bug). When the quorum is not reached, only the running tally
is broadcast and the phase is untouched; when the third distinct voter votes,
the room does auto-advance (`reveal_imposter` in memory, `game_end` in the
store) — but the broadcast round summary carries an empty imposter-name list
and empty vote counts (the `votes` table was never written) and unchanged
scores, although the room's imposter is `P2` and three votes for `u2` are
recorded in memory. -/
theorem C3_vote_quorum_and_summary :
    (vote demoStNoVotes "g1" "u1" "u2").2.1 = [Msg.voteUpdate [("u2", 1)]]
    ∧ ((lookupGame (vote demoStNoVotes "g1" "u1" "u2").1.games "g1").map (·.stage))
        = some "question_answering"
    ∧ (vote demoStNoVotes "g1" "u1" "u2").1.db = demoDb
    ∧ (vote demoSt "g1" "u2" "u2").2.1
        = [Msg.voteUpdate [("u2", 3)],
           Msg.revealImposter "game_end" [] [] [("H", 0), ("P2", 0), ("P3", 0)]]
    ∧ ((lookupGame (vote demoSt "g1" "u2" "u2").1.games "g1").map (·.stage))
        = some "reveal_imposter"
    ∧ ((lookupGame (vote demoSt "g1" "u2" "u2").1.games "g1").map (·.votes))
        = some [("u1", "u2"), ("u3", "u2"), ("u2", "u2")]
    ∧ ((vote demoSt "g1" "u2" "u2").1.db.games.map (·.stage)) = ["game_end"]
    ∧ ((vote demoSt "g1" "u2" "u2").1.db.players.map (·.score)) = [0, 0, 0]
    ∧ demoGame.imposters.map (·.name) = ["P2"]
    ∧ (vote demoSt "g1" "u2" "u2").2.2
        = .ok { message := "P2 voted for P2", current_votes := [("u2", 3)]
                all_voted := true } :=
  ⟨rfl, rfl, rfl, rfl, rfl, rfl, rfl, rfl, rfl, rfl⟩

/-- **C4** (counterexample). `restart_game` does not reset the players'
submitted answers: in the demo room every answer survives the restart, so the
claim that "every player's prompt, answer, and imposter flag are reset to
their defaults" fails at this input. -/
theorem C4_answers_survive_restart :
    ((lookupGame (restart_game demoSt "g1" ["u2"]).1.games "g1").map
        (fun g => g.players.map (·.answer)))
      = some [some "a1", some "a2", some "a3"]
    ∧ ¬ ((lookupGame (restart_game demoSt "g1" ["u2"]).1.games "g1").map
        (fun g => g.players.map (·.answer)))
      = some [none, none, none] :=
  ⟨rfl, by decide⟩

/-- **C5** (code bug). The public `game_restarted` broadcast carries every
player's newly assigned prompt text and imposter flag, so two restarts of the
same room that differ only in `P3`'s assignment (imposter sets `{u2}` versus
`{u2, u3}`; `H` and `P2` are assigned identically in both runs) produce
different events for every recipient — the event delivered to the other
players leaks `P3`'s prompt and imposter status. -/
theorem C5_restart_broadcast_leak :
    (restart_game demoSt "g1" ["u2"]).2.1
      = [Msg.gameRestarted "question_answering"
          [("H", 0, some generate_questions.1, false),
           ("P2", 0, some generate_questions.2, true),
           ("P3", 0, some generate_questions.1, false)]]
    ∧ (restart_game demoSt "g1" ["u2", "u3"]).2.1
      = [Msg.gameRestarted "question_answering"
          [("H", 0, some generate_questions.1, false),
           ("P2", 0, some generate_questions.2, true),
           ("P3", 0, some generate_questions.2, true)]]
    ∧ (restart_game demoSt "g1" ["u2"]).2.1
        ≠ (restart_game demoSt "g1" ["u2", "u3"]).2.1 :=
  ⟨rfl, rfl, by decide⟩

/-- Counting a value among the second components equals the length of the
filtered mapping (each mapping entry is one voter). -/
theorem count_snd_eq_filter_length (t : String) :
    ∀ m : List (String × String),
      (m.map (·.2)).count t = (m.filter (fun e => e.2 == t)).length := by
  intro m
  induction m with
  | nil => simp
  | cons e rest ih =>
    by_cases he : e.2 = t
    · simp [List.count_cons, List.filter_cons, he, ih]
    · simp [List.count_cons, List.filter_cons, he, ih]

/-- **C6** (confirmed). `start_game` on a room with fewer than three loaded
players raises `At least 3 players required` before any mutation: whatever
the would-be random draw, the store is returned unchanged. -/
theorem C6_insufficient_players_rejected (db : DBState) (gid : String)
    (ids : List String) (game : Game) (hg : get_game db gid = some game)
    (hlt : game.players.length < 3) :
    start_game db gid ids = (db, .error "At least 3 players required") := by
  unfold start_game
  rw [hg]
  simp [hlt]

/-- Witness for C6 on the two-player demo lobby. -/
theorem C6_witness :
    start_game demoDb2 "g2" ["w2"] = (demoDb2, .error "At least 3 players required") :=
  C6_insufficient_players_rejected demoDb2 "g2" ["w2"] demoLoaded2 rfl (by decide)

/-- **C7** (confirmed). For every vote mapping: the tally dict gives each
target the number of voters whose vote names it; the winner set
(`mostVotedIds`) is exactly the targets whose count is the maximum count; the
empty mapping gives the empty tally, maximum 0, and empty winner set — all
total, no error path. -/
theorem C7_tally_counts_and_winners (m : List (String × String))
    (hnd : keysNodup m) :
    (∀ t, lookupCount (countVotes (m.map (·.2))) t
        = (m.filter (fun e => e.2 == t)).length)
    ∧ (∀ t, t ∈ mostVotedIds (countVotes (m.map (·.2)))
        ↔ t ∈ m.map (·.2)
          ∧ (m.map (·.2)).count t = maxVotes (countVotes (m.map (·.2))))
    ∧ countVotes [] = [] ∧ maxVotes (countVotes []) = 0
    ∧ mostVotedIds (countVotes []) = [] := by
  have _hkeys : keysNodup m := hnd
  refine ⟨?_, ?_, rfl, rfl, rfl⟩
  · intro t
    rw [lookupCount_countVotes, count_snd_eq_filter_length]
  · intro t
    constructor
    · intro hmem
      obtain ⟨e, hef, het⟩ := List.mem_map.mp hmem
      obtain ⟨hecs, hemax⟩ := List.mem_filter.mp hef
      have hev : e.2 = maxVotes (countVotes (m.map (·.2))) := by simpa using hemax
      have hpair : (t, e.2) ∈ countVotes (m.map (·.2)) := by
        have : e = (t, e.2) := by
          cases e; simp at het ⊢; exact het.symm ▸ rfl
        exact this ▸ hecs
      have hkey : t ∈ (countVotes (m.map (·.2))).map (·.1) :=
        het ▸ List.mem_map_of_mem (·.1) hecs
      refine ⟨(mem_keys_countVotes _ t).mp hkey, ?_⟩
      have := lookupCount_of_mem t e.2 (countVotes (m.map (·.2)))
        (keysNodup_countVotes _) hpair
      rw [← lookupCount_countVotes (m.map (·.2)) t, this, hev]
    · rintro ⟨hts, hcnt⟩
      have hkey : t ∈ (countVotes (m.map (·.2))).map (·.1) :=
        (mem_keys_countVotes _ t).mpr hts
      have hpair := mem_entry_of_key t (countVotes (m.map (·.2))) hkey
      have hval : lookupCount (countVotes (m.map (·.2))) t
          = maxVotes (countVotes (m.map (·.2))) := by
        rw [lookupCount_countVotes]; exact hcnt
      rw [hval] at hpair
      refine List.mem_map.mpr ⟨(t, maxVotes (countVotes (m.map (·.2)))), ?_, rfl⟩
      exact List.mem_filter.mpr ⟨hpair, by simp⟩

/-- Witness for C7 on the mapping `{u1 → u2, u3 → u2, u2 → u1}`. -/
theorem C7_witness :
    (∀ t, lookupCount (countVotes ([("u1", "u2"), ("u3", "u2"), ("u2", "u1")].map (·.2))) t
        = ([("u1", "u2"), ("u3", "u2"), ("u2", "u1")].filter (fun e => e.2 == t)).length)
    ∧ (∀ t, t ∈ mostVotedIds (countVotes ([("u1", "u2"), ("u3", "u2"), ("u2", "u1")].map (·.2)))
        ↔ t ∈ [("u1", "u2"), ("u3", "u2"), ("u2", "u1")].map (·.2)
          ∧ ([("u1", "u2"), ("u3", "u2"), ("u2", "u1")].map (·.2)).count t
            = maxVotes (countVotes ([("u1", "u2"), ("u3", "u2"), ("u2", "u1")].map (·.2))))
    ∧ countVotes [] = [] ∧ maxVotes (countVotes []) = 0
    ∧ mostVotedIds (countVotes []) = [] :=
  C7_tally_counts_and_winners [("u1", "u2"), ("u3", "u2"), ("u2", "u1")] (by decide)

/-- One accepted `vote` call stores `game.votes[player_id] = target_id` on
the registry's room object and leaves the roster untouched, in both the
quorum and the non-quorum branch. -/
theorem vote_records_dictSet (st : AppState) (gid pid tid : String)
    (game : Game) (voter target : Player)
    (hg : lookupGame st.games gid = some game)
    (hv : game.players.find? (fun p => p.player_id == pid) = some voter)
    (ht : game.players.find? (fun p => p.player_id == tid) = some target) :
    ∃ game1, lookupGame (vote st gid pid tid).1.games gid = some game1
      ∧ game1.votes = dictSet game.votes pid tid
      ∧ game1.players = game.players := by
  unfold vote
  rw [hg]
  dsimp only
  rw [hv, ht]
  dsimp only
  by_cases hall :
      ((dictSet game.votes pid tid).length == game.players.length) = true
  · rw [if_pos hall]
    exact ⟨_, lookupGame_updateGames gid _ game st.games hg, rfl, rfl⟩
  · rw [if_neg hall]
    exact ⟨_, lookupGame_updateGames gid _ game st.games hg, rfl, rfl⟩

/-- **C8** (confirmed). Voting for `x` and then for `y` leaves the voter with
exactly one entry in the vote dict — the latest target `y` — and the dict
keeps one entry per voter (distinct keys), so the voter contributes exactly
one count and never more than one to any tally; the second vote did not grow
the dict. -/
theorem C8_revote_replaces (st : AppState) (gid pid x y : String)
    (game : Game) (voter tx ty : Player)
    (hg : lookupGame st.games gid = some game)
    (hv : game.players.find? (fun p => p.player_id == pid) = some voter)
    (htx : game.players.find? (fun p => p.player_id == x) = some tx)
    (hty : game.players.find? (fun p => p.player_id == y) = some ty)
    (hnd : keysNodup game.votes) :
    ∃ game2,
      lookupGame (vote (vote st gid pid x).1 gid pid y).1.games gid = some game2
      ∧ game2.votes.filter (fun e => e.1 == pid) = [(pid, y)]
      ∧ keysNodup game2.votes
      ∧ game2.votes.length = (dictSet game.votes pid x).length := by
  obtain ⟨g1, hl1, hv1, hp1⟩ := vote_records_dictSet st gid pid x game voter tx hg hv htx
  obtain ⟨g2, hl2, hv2, hp2⟩ :=
    vote_records_dictSet (vote st gid pid x).1 gid pid y g1 voter ty hl1
      (by rw [hp1]; exact hv) (by rw [hp1]; exact hty)
  refine ⟨g2, hl2, ?_, ?_, ?_⟩
  · rw [hv2, hv1]
    exact filter_dictSet_self pid y _ (keysNodup_dictSet pid x _ hnd)
  · rw [hv2, hv1]
    exact keysNodup_dictSet pid y _ (keysNodup_dictSet pid x _ hnd)
  · rw [hv2, hv1]
    exact length_dictSet_mem pid y _ (mem_keys_dictSet_self _ pid x)

/-- Witness for C8: `u1` votes for `u2` and then for `u3` in the demo room. -/
theorem C8_witness :
    ∃ game2,
      lookupGame (vote (vote demoStNoVotes "g1" "u1" "u2").1 "g1" "u1" "u3").1.games "g1"
        = some game2
      ∧ game2.votes.filter (fun e => e.1 == "u1") = [("u1", "u3")]
      ∧ keysNodup game2.votes
      ∧ game2.votes.length
        = (dictSet ({ demoGame with votes := [] } : Game).votes "u1" "u2").length :=
  C8_revote_replaces demoStNoVotes "g1" "u1" "u2" "u3"
    { demoGame with votes := [] } demoP1 demoP2 demoP3
    rfl rfl rfl rfl (by decide)

/-- **C10** (confirmed). Any `Game` rebuilt from the store — directly via
`_db_game_to_memory` or through `get_game` — has an empty `imposters` list
and an empty vote dict, whatever `is_imposter` flags its player rows carry:
the round's imposter set and vote mapping are never reconstructed on load. -/
theorem C10_loaded_round_state_empty :
    (∀ (dbg : DBGame) (ps : List DBPlayer) (g : Game),
        _db_game_to_memory dbg ps = some g → g.imposters = [] ∧ g.votes = [])
    ∧ (∀ (db : DBState) (gid : String) (g : Game),
        get_game db gid = some g → g.imposters = [] ∧ g.votes = []) := by
  have base : ∀ (dbg : DBGame) (ps : List DBPlayer) (g : Game),
      _db_game_to_memory dbg ps = some g → g.imposters = [] ∧ g.votes = [] := by
    intro dbg ps g h
    cases ps with
    | nil => simp [_db_game_to_memory] at h
    | cons p0 rest =>
      unfold _db_game_to_memory at h
      dsimp only at h
      cases h
      exact ⟨rfl, rfl⟩
  refine ⟨base, ?_⟩
  intro db gid g h
  unfold get_game at h
  cases hf : db.games.find? (fun gg => gg.game_id == gid) with
  | none =>
    rw [hf] at h
    cases h
  | some dbg =>
    rw [hf] at h
    exact base dbg _ g h

/-- Witness for C10: the demo store marks `u2` as imposter, yet the loaded
game's `imposters` and `votes` are empty. -/
theorem C10_witness :
    get_game demoDb "g1" = some { demoGame with imposters := [], votes := [] }
    ∧ ({ demoGame with imposters := [], votes := [] } : Game).imposters = []
    ∧ ({ demoGame with imposters := [], votes := [] } : Game).votes = [] :=
  ⟨rfl,
   (C10_loaded_round_state_empty.2 demoDb "g1" _ rfl).1,
   (C10_loaded_round_state_empty.2 demoDb "g1" _ rfl).2⟩

/-- Normal form of the three restart loops: one map that reassigns only the
`question` and `is_imposter` fields. -/
theorem restartRoster_eq (ids : List String) (ps : List Player) :
    restartRoster ids ps = ps.map (fun p =>
      { p with
        question := some (if ids.contains p.player_id
          then generate_questions.2 else generate_questions.1)
        is_imposter := ids.contains p.player_id }) := by
  unfold restartRoster
  rw [List.map_map, List.map_map]
  apply List.map_congr_left
  intro p _
  by_cases hc : p.player_id ∈ ids
  · simp [hc]
  · simp [hc]

/-- **C4** (amended, confirmed). `restart_game` preserves ids, names, join
order, cumulative scores — and, contrary to the original claim, also each
player's submitted `answer` — while emptying the vote dict, advancing the
stage, and reassigning `question` and `is_imposter` from the fresh sample;
the store is untouched. -/
theorem C4_restart_frame (st : AppState) (gid : String) (ids : List String)
    (game : Game) (hg : lookupGame st.games gid = some game) :
    ∃ game1, lookupGame (restart_game st gid ids).1.games gid = some game1
      ∧ game1.players.map (·.player_id) = game.players.map (·.player_id)
      ∧ game1.players.map (·.name) = game.players.map (·.name)
      ∧ game1.players.map (·.score) = game.players.map (·.score)
      ∧ game1.players.map (·.answer) = game.players.map (·.answer)
      ∧ game1.votes = []
      ∧ game1.stage = "question_answering"
      ∧ (∀ p ∈ game1.players,
          p.question = some (if ids.contains p.player_id
            then generate_questions.2 else generate_questions.1)
          ∧ p.is_imposter = ids.contains p.player_id)
      ∧ (restart_game st gid ids).1.db = st.db := by
  unfold restart_game
  rw [hg]
  dsimp only
  refine ⟨_, lookupGame_updateGames gid _ game st.games hg, ?_, ?_, ?_, ?_, rfl, rfl, ?_, rfl⟩
  · rw [restartRoster_eq, List.map_map]
    exact List.map_congr_left (fun p _ => rfl)
  · rw [restartRoster_eq, List.map_map]
    exact List.map_congr_left (fun p _ => rfl)
  · rw [restartRoster_eq, List.map_map]
    exact List.map_congr_left (fun p _ => rfl)
  · rw [restartRoster_eq, List.map_map]
    exact List.map_congr_left (fun p _ => rfl)
  · intro p hp
    rw [restartRoster_eq] at hp
    obtain ⟨q, _, rfl⟩ := List.mem_map.mp hp
    exact ⟨rfl, rfl⟩

/-- Witness for C4 (amended) on the demo room. -/
theorem C4_witness :
    ∃ game1, lookupGame (restart_game demoSt "g1" ["u2"]).1.games "g1" = some game1
      ∧ game1.players.map (·.player_id) = demoGame.players.map (·.player_id)
      ∧ game1.players.map (·.name) = demoGame.players.map (·.name)
      ∧ game1.players.map (·.score) = demoGame.players.map (·.score)
      ∧ game1.players.map (·.answer) = demoGame.players.map (·.answer)
      ∧ game1.votes = []
      ∧ game1.stage = "question_answering"
      ∧ (∀ p ∈ game1.players,
          p.question = some (if ["u2"].contains p.player_id
            then generate_questions.2 else generate_questions.1)
          ∧ p.is_imposter = ["u2"].contains p.player_id)
      ∧ (restart_game demoSt "g1" ["u2"]).1.db = demoSt.db :=
  C4_restart_frame demoSt "g1" ["u2"] demoGame rfl

/-- The loop's attempts are one per registered recipient, in order. -/
theorem sendAttempts_map (ok : Nat → Bool) :
    ∀ room : List (String × Nat),
      sendAttempts room ok = room.map (fun c => (c.1, ok c.2)) := by
  intro room
  induction room with
  | nil => rfl
  | cons c rest ih => obtain ⟨n, ch⟩ := c; simp [sendAttempts, ih]

/-- Deleting a batch of names one by one filters out exactly those names. -/
theorem delNames_filter :
    ∀ (names : List String) (room : List (String × Nat)),
      delNames room names = room.filter (fun c => !(names.contains c.1)) := by
  intro names
  induction names with
  | nil => intro room; simp [delNames]
  | cons n ns ih =>
    intro room
    have step : delNames room (n :: ns) = delNames (room.filter (fun c => c.1 != n)) ns := rfl
    rw [step, ih, List.filter_filter]
    apply List.filter_congr
    intro c _
    by_cases h1 : c.1 = n
    · simp [h1]
    · simp [h1]

/-- In a dict with distinct keys, two entries with the same key coincide. -/
theorem keysNodup_key_inj {β : Type} :
    ∀ l : List (String × β), keysNodup l →
      ∀ a b : String × β, a ∈ l → b ∈ l → a.1 = b.1 → a = b := by
  intro l
  induction l with
  | nil => intro _ a b ha; simp at ha
  | cons e rest ih =>
    intro hnd a b ha hb h
    have hne : e.1 ∉ rest.map (·.1) := (List.nodup_cons.mp hnd).1
    have hrest : keysNodup rest := (List.nodup_cons.mp hnd).2
    rcases List.mem_cons.mp ha with rfl | ha2
    · rcases List.mem_cons.mp hb with rfl | hb2
      · rfl
      · exact absurd (h ▸ List.mem_map_of_mem (·.1) hb2) hne
    · rcases List.mem_cons.mp hb with rfl | hb2
      · exact absurd (h ▸ List.mem_map_of_mem (·.1) ha2) hne
      · exact ih hrest a b ha2 hb2 h

/-- Overwriting the found entry's value is visible to a later lookup. -/
theorem find?_map_update {β : Type} (gid : String) (newv : β) :
    ∀ (conns : List (String × β)) (oldv : β),
      conns.find? (fun kv => kv.1 == gid) = some (gid, oldv) →
      (conns.map (fun e => if e.1 == gid then (e.1, newv) else e)).find?
          (fun kv => kv.1 == gid) = some (gid, newv) := by
  intro conns
  induction conns with
  | nil => intro oldv h; simp at h
  | cons e rest ih =>
    intro oldv h
    obtain ⟨a, b⟩ := e
    by_cases he : a = gid
    · subst he
      simp
    · have hstep : ((a, b) :: rest).find? (fun kv => kv.1 == gid)
          = rest.find? (fun kv => kv.1 == gid) := by
        simp [List.find?_cons, he]
      rw [hstep] at h
      simpa [List.find?_cons, he] using ih oldv h

/-- The eviction loop removes exactly the recipients whose send failed. -/
theorem delNames_dead_eq_filter (room : List (String × Nat)) (ok : Nat → Bool)
    (hnd : keysNodup room) :
    delNames room (((sendAttempts room ok).filter (fun a => !a.2)).map (·.1))
      = room.filter (fun c => ok c.2) := by
  rw [sendAttempts_map, delNames_filter]
  apply List.filter_congr
  intro c hc
  by_cases hok : ok c.2 = true
  · have hnm : c.1 ∉ ((room.map (fun d => (d.1, ok d.2))).filter
        (fun a => !a.2)).map (·.1) := by
      intro hmem
      obtain ⟨e, hef, he1⟩ := List.mem_map.mp hmem
      obtain ⟨hem, hneg⟩ := List.mem_filter.mp hef
      obtain ⟨d, hdroom, hde⟩ := List.mem_map.mp hem
      have hd1 : d.1 = c.1 := by rw [← hde] at he1; exact he1
      have hdc : d = c := keysNodup_key_inj room hnd d c hdroom hc hd1
      have hofalse : ok c.2 = false := by
        rw [hdc] at hde
        rw [← hde] at hneg
        simpa using hneg
      rw [hofalse] at hok
      exact absurd hok (by simp)
    simp [hok, hnm]
  · have hofalse : ok c.2 = false := by
      revert hok; cases ok c.2 <;> simp
    have hmem : c.1 ∈ ((room.map (fun d => (d.1, ok d.2))).filter
        (fun a => !a.2)).map (·.1) := by
      refine List.mem_map.mpr ⟨(c.1, ok c.2), ?_, rfl⟩
      refine List.mem_filter.mpr ⟨List.mem_map_of_mem _ hc, ?_⟩
      simp [hofalse]
    simp [hofalse, hmem]

/-- **C9** (confirmed). On a registered room, `broadcast` attempts one send
per registered recipient — the attempted list covers every registrant and
does not depend on which sends fail — and afterwards the room's registry
holds exactly the recipients whose send succeeded (failed ones are evicted);
the call returns normally for every failure pattern `ok`. -/
theorem C9_broadcast_best_effort
    (connections : List (String × List (String × Nat)))
    (gid : String) (ok : Nat → Bool) (room : List (String × Nat))
    (hfind : connections.find? (fun kv => kv.1 == gid) = some (gid, room))
    (hnd : keysNodup room) :
    (broadcast connections gid ok).2 = room.map (·.1)
    ∧ (broadcast connections gid ok).1.find? (fun kv => kv.1 == gid)
        = some (gid, room.filter (fun c => ok c.2)) := by
  unfold broadcast
  rw [hfind]
  dsimp only
  by_cases hempty : room.isEmpty = true
  · have hnil : room = [] := by
      cases room
      · rfl
      · simp [List.isEmpty] at hempty
    subst hnil
    rw [if_pos hempty]
    exact ⟨rfl, by simpa using hfind⟩
  · rw [if_neg hempty]
    constructor
    · rw [sendAttempts_map, List.map_map]
      exact List.map_congr_left (fun c _ => rfl)
    · rw [find?_map_update gid _ connections room hfind,
        delNames_dead_eq_filter room ok hnd]

/-- Witness for C9: three registrants, the channel of `P2` broken — all three
are attempted, `P2` is evicted, the call returns. -/
theorem C9_witness :
    (broadcast [("g1", [("H", 1), ("P2", 2), ("P3", 3)])] "g1"
        (fun ch => ch != 2)).2
      = [("H", 1), ("P2", 2), ("P3", 3)].map (·.1)
    ∧ (broadcast [("g1", [("H", 1), ("P2", 2), ("P3", 3)])] "g1"
          (fun ch => ch != 2)).1.find? (fun kv => kv.1 == "g1")
      = some ("g1", [("H", 1), ("P2", 2), ("P3", 3)].filter (fun c => c.2 != 2)) :=
  C9_broadcast_best_effort [("g1", [("H", 1), ("P2", 2), ("P3", 3)])] "g1"
    (fun ch => ch != 2) [("H", 1), ("P2", 2), ("P3", 3)] rfl (by decide)

/-- A nodup list of keys restricted to a nodup sub-collection of its
elements has exactly that collection's size. -/
theorem length_filter_contains (ids : List String) (l : List String)
    (hl : l.Nodup) (hids : ids.Nodup) (hsub : ∀ i ∈ ids, i ∈ l) :
    (l.filter (fun x => ids.contains x)).length = ids.length := by
  have h1 : (l.filter (fun x => ids.contains x)).Nodup := hl.filter _
  have h2 : (l.filter (fun x => ids.contains x)).toFinset = ids.toFinset := by
    ext x
    simp only [List.mem_toFinset, List.mem_filter]
    constructor
    · rintro ⟨_, hxc⟩
      exact List.elem_iff.mp hxc
    · intro hx
      exact ⟨hsub x hx, List.elem_iff.mpr hx⟩
  have h3 := List.toFinset_card_of_nodup h1
  have h4 := List.toFinset_card_of_nodup hids
  rw [h2, h4] at h3
  omega

/-- Number of roster players whose id was sampled, when ids are distinct and
all sampled from the roster. -/
theorem length_filter_contains_players (ids : List String) (ps : List Player)
    (hnd : (ps.map (·.player_id)).Nodup) (hids : ids.Nodup)
    (hsub : ∀ i ∈ ids, i ∈ ps.map (·.player_id)) :
    (ps.filter (fun p => ids.contains p.player_id)).length = ids.length := by
  calc (ps.filter (fun p => ids.contains p.player_id)).length
      = ps.countP (fun p => ids.contains p.player_id) :=
        (List.countP_eq_length_filter _ _).symm
    _ = (ps.map (·.player_id)).countP (fun x => ids.contains x) := by
        rw [List.countP_map]; rfl
    _ = ((ps.map (·.player_id)).filter (fun x => ids.contains x)).length :=
        List.countP_eq_length_filter _ _
    _ = ids.length := length_filter_contains ids _ hnd hids hsub

/-- Identity membership in the filtered imposter sub-roster is exactly the
sampled-id test, for players of the roster. -/
theorem pyMem_filter_contains (ids : List String) (ps : List Player)
    (p : Player) (hp : p ∈ ps) :
    (pyMem p (ps.filter (fun q => ids.contains q.player_id)) = true)
      ↔ p.player_id ∈ ids := by
  unfold pyMem
  rw [List.any_eq_true]
  constructor
  · rintro ⟨q, hqf, hq⟩
    obtain ⟨_, hqc⟩ := List.mem_filter.mp hqf
    have hqp : q.player_id = p.player_id := by simpa using hq
    rw [← hqp]
    exact List.elem_iff.mp hqc
  · intro hc
    exact ⟨p, List.mem_filter.mpr ⟨hp, List.elem_iff.mpr hc⟩, by simp⟩

/-- The embedded prompts differ, so "got the imposter prompt" is decidable
from the question field alone. -/
theorem generate_questions_ne : generate_questions.1 ≠ generate_questions.2 := by
  decide

/-- **C2** (confirmed). First conjunct — the distribution of the sampled
imposter subset over an `n`-player room (`n ≥ 3`) is the two-stage
composition: a size `k` uniform on `[1, n-1]`, then a uniform `k`-subset, so
a subset `S` has mass `1/((n-1)·C(n,|S|))` iff `1 ≤ |S| ≤ n-1` and mass 0
otherwise (in particular the stage-1 size is uniform, not a per-player coin
flip, which would weight sizes binomially). Second conjunct — for any draw
within that support, `start_game` succeeds and afterwards the imposter list
has the drawn size (within `[1, playerCount-1]`), and every player holds
exactly one non-null prompt which is the imposter prompt iff the player is in
the imposter list and the main prompt otherwise, with the `is_imposter` flag
matching. -/
theorem C2_two_stage_sampling_and_prompts :
    (∀ n : ℕ, 3 ≤ n → ∀ S : Finset (Fin n),
        imposterSubsetMass n S
          = if 1 ≤ S.card ∧ S.card ≤ n - 1
            then 1 / (((n - 1 : ℕ) : ℚ) * ((n.choose S.card : ℕ) : ℚ))
            else 0)
    ∧ (∀ (db : DBState) (gid : String) (ids : List String) (game : Game),
        get_game db gid = some game → ¬ game.players.length < 3 →
        1 ≤ ids.length → ids.length ≤ game.players.length - 1 →
        ids.Nodup → (∀ i ∈ ids, i ∈ game.players.map (·.player_id)) →
        (game.players.map (·.player_id)).Nodup →
        ∃ db1 game1, start_game db gid ids = (db1, Except.ok game1)
          ∧ game1.players.length = game.players.length
          ∧ game1.imposters.length = ids.length
          ∧ 1 ≤ game1.imposters.length
          ∧ game1.imposters.length ≤ game1.players.length - 1
          ∧ ∀ p ∈ game1.players,
              p.question ≠ none
              ∧ (p.question = some generate_questions.2
                  ↔ pyMem p game1.imposters = true)
              ∧ (pyMem p game1.imposters = false
                  → p.question = some generate_questions.1)
              ∧ p.is_imposter = pyMem p game1.imposters) := by
  constructor
  · intro n _hn S
    unfold imposterSubsetMass randintMass sampleMass
    have hstep : ∀ k ∈ Finset.Icc 1 (n - 1),
        (if 1 ≤ k ∧ k ≤ n - 1 then (1 : ℚ) / ((n - 1 - 1 + 1 : ℕ) : ℚ) else 0)
          * (if S.card = k then 1 / ((n.choose k : ℕ) : ℚ) else 0)
        = if S.card = k
          then (1 : ℚ) / ((n - 1 : ℕ) : ℚ) * (1 / ((n.choose k : ℕ) : ℚ))
          else 0 := by
      intro k hk
      rw [Finset.mem_Icc] at hk
      rw [if_pos hk]
      have hb : (n - 1 - 1 + 1 : ℕ) = n - 1 := by omega
      rw [hb]
      by_cases hs : S.card = k
      · rw [if_pos hs, if_pos hs]
      · rw [if_neg hs, if_neg hs, mul_zero]
    rw [Finset.sum_congr rfl hstep, Finset.sum_ite_eq]
    simp only [Finset.mem_Icc]
    by_cases hc : 1 ≤ S.card ∧ S.card ≤ n - 1
    · rw [if_pos hc, if_pos hc, one_div_mul_one_div]
    · rw [if_neg hc, if_neg hc]
  · intro db gid ids game hg h3 hlo hhi hndids hsub hndpid
    unfold start_game
    rw [hg]
    dsimp only
    rw [if_neg h3]
    have hUids : (startRoster ids game.players).map (·.player_id)
        = game.players.map (·.player_id) := by
      unfold startRoster
      rw [List.map_map]
      exact List.map_congr_left (fun p _ => rfl)
    have hUlen : (startRoster ids game.players).length = game.players.length := by
      unfold startRoster; rw [List.length_map]
    have hIlen : ((startRoster ids game.players).filter
        (fun p => ids.contains p.player_id)).length = ids.length := by
      have h1 : ((startRoster ids game.players).map (·.player_id)).Nodup := by
        rw [hUids]; exact hndpid
      have h2 : ∀ i ∈ ids, i ∈ (startRoster ids game.players).map (·.player_id) := by
        intro i hi; rw [hUids]; exact hsub i hi
      exact length_filter_contains_players ids _ h1 hndids h2
    refine ⟨_, _, rfl, hUlen, hIlen, ?_, ?_, ?_⟩
    · rw [hIlen]; exact hlo
    · rw [hIlen, hUlen]; exact hhi
    · intro p hp
      have hmem := pyMem_filter_contains ids (startRoster ids game.players) _ hp
      have hp2 : p ∈ List.map (fun player =>
          { player with
            question := some (if ids.contains player.player_id
              then generate_questions.2 else generate_questions.1)
            is_imposter := ids.contains player.player_id }) game.players := hp
      obtain ⟨q, hqmem, rfl⟩ := List.mem_map.mp hp2
      by_cases hq : q.player_id ∈ ids
      · have hqc : ids.contains q.player_id = true := List.elem_iff.mpr hq
        have hpytrue := hmem.mpr hq
        refine ⟨by simp, ?_, ?_, ?_⟩
        · rw [hpytrue]; simp [hq]
        · intro hfalse; rw [hpytrue] at hfalse; cases hfalse
        · rw [hpytrue]; exact hqc
      · have hqc : ids.contains q.player_id = false := by
          rcases hcc : ids.contains q.player_id with _ | _
          · rfl
          · exact absurd (List.elem_iff.mp hcc) hq
        have hpyfalse := Bool.eq_false_iff.mpr (fun h => hq (hmem.mp h))
        refine ⟨by simp, ?_, ?_, ?_⟩
        · rw [hpyfalse]
          simp [hq, generate_questions_ne]
        · intro _; simp [hq]
        · rw [hpyfalse]; exact hqc

/-- Witness for C2: the mass of the singleton `{0}` in a 3-player room, and a
start of the demo room drawing `u2` as the only imposter. -/
theorem C2_witness :
    (imposterSubsetMass 3 {(0 : Fin 3)}
      = if 1 ≤ ({(0 : Fin 3)} : Finset (Fin 3)).card
          ∧ ({(0 : Fin 3)} : Finset (Fin 3)).card ≤ 3 - 1
        then 1 / (((3 - 1 : ℕ) : ℚ)
          * ((Nat.choose 3 ({(0 : Fin 3)} : Finset (Fin 3)).card : ℕ) : ℚ))
        else 0)
    ∧ (∃ db1 game1, start_game demoDb "g1" ["u2"] = (db1, Except.ok game1)
        ∧ game1.players.length
          = ({ demoGame with imposters := [], votes := [] } : Game).players.length
        ∧ game1.imposters.length = (["u2"] : List String).length
        ∧ 1 ≤ game1.imposters.length
        ∧ game1.imposters.length ≤ game1.players.length - 1
        ∧ ∀ p ∈ game1.players,
            p.question ≠ none
            ∧ (p.question = some generate_questions.2
                ↔ pyMem p game1.imposters = true)
            ∧ (pyMem p game1.imposters = false
                → p.question = some generate_questions.1)
            ∧ p.is_imposter = pyMem p game1.imposters) :=
  ⟨C2_two_stage_sampling_and_prompts.1 3 (by decide) {(0 : Fin 3)},
   C2_two_stage_sampling_and_prompts.2 demoDb "g1" ["u2"]
     { demoGame with imposters := [], votes := [] }
     rfl (by decide) (by decide) (by decide) (by decide) (by decide) (by decide)⟩

end Imposter
